import Mathlib

/-!
Verification of the PeakPlay top-songs service (Express API tier in
`api/index.js`, React client tier in `src/hooks/useTracksData.ts`,
utilities in `src/utils/ImageTools.ts`).

Instants are modelled as milliseconds since the Unix epoch, as in the
JavaScript `Date` class: an `Int`, with UTC calendar days exactly
86400000 ms long.  `setUTCHours(23,0,0,0)` on a date holding instant
`t` therefore yields `floor(t / day) * day + 23h`; for a positive
divisor the Lean `Int` division `/` rounds toward negative infinity,
matching the JavaScript floor semantics.
-/


/-- Milliseconds in one hour. -/
def msPerHour : Int := 3600000

/-- Milliseconds in one UTC day (UTC has no leap seconds in the JS time scale). -/
def msPerDay : Int := 86400000

/-- The instant 23:00 UTC on the calendar date of `now`; embeds the
`today11PM.setUTCHours(23, 0, 0, 0)` computation used throughout both tiers. -/
def todayCutoff (now : Int) : Int :=
  now / msPerDay * msPerDay + 23 * msPerHour

/-- The instant 23:00 UTC of the previous calendar day; embeds
`yesterday11PM.setUTCDate(yesterday11PM.getUTCDate() - 1)`, which in UTC
subtracts exactly one day of milliseconds. -/
def yesterdayCutoff (now : Int) : Int :=
  todayCutoff now - msPerDay

/-- The scheduling helper `getNext11PMUTC` of `api/index.js` (also duplicated in
the standalone server file): start from 23:00 UTC of the current date and move
one day forward when `now.getTime() > next11PM.getTime()`. -/
def getNext11PMUTC (now : Int) : Int :=
  if now > todayCutoff now then todayCutoff now + msPerDay else todayCutoff now

/-- An artist as exposed by the API: display name plus link. -/
structure Artist where
  name : String
  url : String
deriving DecidableEq

/-- An album image as exposed by the API. -/
structure Image where
  url : String
  width : Int
  height : Int
deriving DecidableEq

/-- A fully assembled track record as served by `/api/top-songs`. -/
structure Track where
  position : Int
  positionChange : String
  title : String
  url : String
  days : Int
  peakPosition : Int
  dailyStreams : Int
  totalStreams : Int
  artists : List Artist
  images : List Image
deriving DecidableEq

/-- The server cache payload `{cachedAt, tracks}`; `cachedAt` is `none` when
the field is missing or falsy (the code guards with `!cacheData.cachedAt`). -/
structure CacheData where
  cachedAt : Option Int
  tracks : List Track
deriving DecidableEq

/-- `shouldRefreshCache` from `api/index.js`: absent data or a missing
timestamp forces a refresh; otherwise refresh exactly when the entry predates
the 23:00 UTC cutoff of the current date and `now` lies strictly after it. -/
def shouldRefreshCache (cacheData : Option CacheData) (now : Int) : Bool :=
  match cacheData with
  | none => true
  | some c =>
    match c.cachedAt with
    | none => true
    | some t => decide (t < todayCutoff now) && decide (now > todayCutoff now)

/-- `isCacheValid` from `api/index.js`: an entry is valid when created strictly
after 23:00 UTC of the previous calendar day; absent data or a missing
timestamp is never valid. -/
def isCacheValid (cacheData : Option CacheData) (now : Int) : Bool :=
  match cacheData with
  | none => false
  | some c =>
    match c.cachedAt with
    | none => false
    | some t => decide (t > yesterdayCutoff now)

/-- The calendar clause of the client `isCacheStale` in `useTracksData.ts`:
the entry predates the 23:00 UTC cutoff and `now` lies strictly after it. -/
def staleCalendarClause (t now : Int) : Bool :=
  decide (t < todayCutoff now) && decide (now > todayCutoff now)

/-- The client `isCacheStale`: the calendar clause, or the 12-hour background
refresh fallback `diffInHours > CACHE_STALE_REFRESH_HOURS`; over exact
arithmetic the hour comparison is equivalent to `now - t > 12h` in ms. -/
def isCacheStale (t now : Int) : Bool :=
  staleCalendarClause t now || decide (now - t > 12 * msPerHour)

/-- The client `isCacheValid` in `useTracksData.ts`; a missing timestamp
parses to an invalid date whose `NaN` comparisons are all false. -/
def clientIsCacheValid (cachedAt : Option Int) (now : Int) : Bool :=
  match cachedAt with
  | none => false
  | some t => decide (t > yesterdayCutoff now)

deriving instance DecidableEq for Except

/-- The value the server sees in Redis under `top_songs_cache`, as classified
by the branches of `loadFromCache` in `api/index.js`: no value, a string that
`JSON.parse` rejects, a value of unexpected type, a throwing read, or a
structured payload whose `cachedAt` and `tracks` fields may each be missing or
falsy (`none`). -/
inductive RedisPayload where
  | missing
  | badString
  | badType
  | readError
  | stored (cachedAt : Option Int) (tracks : Option (List Track))
deriving DecidableEq

/-- The server `loadFromCache`: every abnormal branch (missing value, parse
failure, unexpected type, read error, payload without truthy `cachedAt` and
`tracks`) returns `null`; only a structurally complete payload is returned. -/
def loadFromCache (store : RedisPayload) : Option CacheData :=
  match store with
  | .stored (some t) (some tracks) => some ⟨some t, tracks⟩
  | _ => none

/-- The server `loadFromCache` together with the state of the Redis store
after the call: the source contains no delete command, so the store is
returned unchanged in every branch. -/
def loadFromCacheStore (store : RedisPayload) : Option CacheData × RedisPayload :=
  (loadFromCache store, store)

/-- The server `saveToCache`: stores the JSON string
`{cachedAt: now, tracks}`, viewed here through the parse that a later read
performs (a failing `redis.set` is caught and logged; the success case is
modelled). -/
def saveToCache (tracks : List Track) (now : Int) : RedisPayload :=
  .stored (some now) (some tracks)

/-- Outcome of one `GET /api/top-songs` request: the response (`ok` data or a
500 error), the Redis store afterwards, and how many source fetches ran. -/
structure ServerOutcome where
  result : Except Unit (List Track)
  store : RedisPayload
  fetches : Nat
deriving DecidableEq

/-- The fetch-and-fallback tail of the `/api/top-songs` handler: on fetch
success save and return the fresh tracks; on failure reload the (unchanged)
cache and serve any entry found there, else answer 500. -/
def serverFetchPath (store : RedisPayload) (now : Int)
    (fetchResult : Except Unit (List Track)) : ServerOutcome :=
  match fetchResult with
  | .ok tracks => ⟨.ok tracks, saveToCache tracks now, 1⟩
  | .error _ =>
    match loadFromCache store with
    | some c => ⟨.ok c.tracks, store, 1⟩
    | none => ⟨.error (), store, 1⟩

/-- The `/api/top-songs` handler of `api/index.js`: serve the cache directly
when an entry exists, is valid and needs no scheduled refresh; otherwise run
the fetch path.  `fetchResult` is the outcome `fetchSongsData` would have. -/
def serverRead (store : RedisPayload) (now : Int)
    (fetchResult : Except Unit (List Track)) : ServerOutcome :=
  match loadFromCache store with
  | some c =>
    if isCacheValid (some c) now && !(shouldRefreshCache (some c) now) then
      ⟨.ok c.tracks, store, 0⟩
    else serverFetchPath store now fetchResult
  | none => serverFetchPath store now fetchResult

/-- The value in `localStorage` under the top-tracks key, as classified by the
client `loadFromCache`: no item, a string `JSON.parse` rejects, or a parsed
object whose `cachedAt` and `data` fields may each be missing (`none`). -/
inductive LocalPayload where
  | missing
  | badString
  | stored (cachedAt : Option Int) (data : Option (List Track))
deriving DecidableEq

/-- An entry as returned by the client `loadFromCache`: the code copies
`cacheEntry.data` through without checking it, so `data` may be absent. -/
structure ClientEntry where
  cachedAt : Int
  data : Option (List Track)
deriving DecidableEq

/-- The client `loadFromCache` of `useTracksData.ts`, with the store state
after the call: a missing item or a parse failure returns `null` and leaves
the store alone; a parsed entry failing `isCacheValid` (including a missing
`cachedAt`, whose invalid-date comparisons are all false) is removed via
`localStorage.removeItem` and `null` is returned; a valid entry is returned
as is, `data` field unchecked. -/
def clientLoadFromCache (store : LocalPayload) (now : Int) :
    Option ClientEntry × LocalPayload :=
  match store with
  | .missing => (none, .missing)
  | .badString => (none, .badString)
  | .stored none _ => (none, .missing)
  | .stored (some t) d =>
    if clientIsCacheValid (some t) now then (some ⟨t, d⟩, .stored (some t) d)
    else (none, .missing)

/-- The client `saveToCache`: writes `{data, cachedAt: now}` (storage errors
are swallowed; the success case is modelled). -/
def clientSaveToCache (data : List Track) (now : Int) : LocalPayload :=
  .stored (some now) (some data)

/-- Outcome of one client `loadTracks` run: the UI result (`ok` tracks or the
error state), the local store afterwards, and how many API fetches ran. -/
structure ClientOutcome where
  result : Except Unit (List Track)
  store : LocalPayload
  fetches : Nat
deriving DecidableEq

/-- `applyTracksToState` applied to the `data` field of a cache entry: with
the field absent, `tracks.slice` throws a `TypeError` that the outer handler
turns into the error state. -/
def applyData (data : Option (List Track)) : Except Unit (List Track) :=
  match data with
  | some tracks => .ok tracks
  | none => .error ()

/-- The client `loadTracks` of `useTracksData.ts`: serve a loaded entry
directly unless `isCacheStale` asks for a refresh; otherwise fetch, saving and
serving fresh data on success, falling back to the loaded entry on failure,
and surfacing the error when no entry was loaded. -/
def clientRead (store : LocalPayload) (now : Int)
    (fetchResult : Except Unit (List Track)) : ClientOutcome :=
  match clientLoadFromCache store now with
  | (some e, store1) =>
    if isCacheStale e.cachedAt now then
      match fetchResult with
      | .ok fresh => ⟨.ok fresh, clientSaveToCache fresh now, 1⟩
      | .error _ => ⟨applyData e.data, store1, 1⟩
    else ⟨applyData e.data, store1, 0⟩
  | (none, store1) =>
    match fetchResult with
    | .ok fresh => ⟨.ok fresh, clientSaveToCache fresh now, 1⟩
    | .error _ => ⟨.error (), store1, 1⟩

/-- A row of the kworb chart as collected by the scraping loop of
`fetchSongsData`: numeric columns already parsed, the first artist link as a
temporary `artist` name, and the track id extracted from the title link
(empty when the href does not match `track/<id>.html`). -/
structure ScrapedRow where
  position : Int
  positionChange : String
  title : String
  artist : String
  trackId : String
  days : Int
  peakPosition : Int
  dailyStreams : Int
  totalStreams : Int
deriving DecidableEq

/-- An artist object of the Spotify API response: `external_urls.spotify` may
be missing or falsy. -/
structure SpotifyArtist where
  name : String
  id : String
  externalUrl : Option String
deriving DecidableEq

/-- An album image of the Spotify API response: width and height may be
missing or falsy (the code falls back to 0 with `||`). -/
structure RawImage where
  url : String
  width : Option Int
  height : Option Int
deriving DecidableEq

/-- A track of the Spotify API response; `album.images` may be missing
(the code falls back to an empty list with optional chaining and `||`). -/
structure SpotifyTrack where
  artists : List SpotifyArtist
  albumImages : Option (List RawImage)
deriving DecidableEq

/-- The track URL built during the scrape: the open.spotify.com link when an
id was extracted, empty otherwise.  The later enrichment loop recovers the id
with `track.url.split('/track/')[1]`, the inverse of this construction, since
extracted ids never contain a slash. -/
def trackUrl (trackId : String) : String :=
  if trackId = "" then "" else "https://open.spotify.com/track/" ++ trackId

/-- One artist of the enriched output:
`{name, url: external_urls.spotify || open.spotify.com/artist/<id>}`. -/
def enrichArtist (a : SpotifyArtist) : Artist :=
  ⟨a.name, a.externalUrl.getD ("https://open.spotify.com/artist/" ++ a.id)⟩

/-- One image of the enriched output: `{url, width || 0, height || 0}`. -/
def enrichImage (i : RawImage) : Image :=
  ⟨i.url, i.width.getD 0, i.height.getD 0⟩

/-- The basic structure built when no Spotify data is available for a row:
scraped columns, a single contributor with the scraped artist name and an
empty link, and no images. -/
def fallbackTrack (s : ScrapedRow) : Track :=
  ⟨s.position, s.positionChange, s.title, trackUrl s.trackId, s.days,
    s.peakPosition, s.dailyStreams, s.totalStreams, [⟨s.artist, ""⟩], []⟩

/-- The track built when Spotify data was found for a row: scraped columns
plus the mapped artist and album image lists. -/
def enrichedTrack (s : ScrapedRow) (st : SpotifyTrack) : Track :=
  ⟨s.position, s.positionChange, s.title, trackUrl s.trackId, s.days,
    s.peakPosition, s.dailyStreams, s.totalStreams,
    st.artists.map enrichArtist,
    (st.albumImages.map (List.map enrichImage)).getD []⟩

/-- The body of the enrichment `forEach`: rows without a track id, and rows
whose id is not in the collected Spotify map, keep the scraped fallback. -/
def enrichOne (lookup : String → Option SpotifyTrack) (s : ScrapedRow) : Track :=
  if s.trackId = "" then fallbackTrack s
  else
    match lookup s.trackId with
    | some st => enrichedTrack s st
    | none => fallbackTrack s

/-- The `trackIds` list collected during the scrape: ids of rows whose title
link yielded one, in row order. -/
def trackIdsOf (rows : List ScrapedRow) : List String :=
  (rows.filter (fun s => s.trackId != "")).map (fun s => s.trackId)

/-- Worker for the batching loop, structurally recursive on a fuel that
bounds the number of remaining iterations (each iteration drops 50 ids, so
the list length is always enough fuel). -/
def chunks50Go (fuel : Nat) (l : List String) : List (List String) :=
  match fuel, l with
  | _, [] => []
  | 0, _ :: _ => []
  | fuel + 1, x :: xs => ((x :: xs).take 50) :: chunks50Go fuel ((x :: xs).drop 50)

/-- The batching of `trackIds.slice(i, i + 50)` for `i = 0, 50, 100, ...`. -/
def chunks50 (l : List String) : List (List String) :=
  chunks50Go l.length l

/-- Whether `id` is queried by some batch whose `spotifySDK.tracks.get` call
succeeded; `batchOk b` tells whether batch number `b` succeeded. -/
def inSuccessfulBatch (ids : List String) (batchOk : Nat → Bool) (id : String) : Bool :=
  (chunks50 ids).enum.any (fun p => batchOk p.1 && p.2.contains id)

/-- The `spotifyData` map after the batch loop: an id maps to its track when
some successful batch queried it and the Spotify catalogue (`spotify`) has it;
a failed batch contributes nothing but aborts nothing. -/
def spotifyDataOf (ids : List String) (batchOk : Nat → Bool)
    (spotify : String → Option SpotifyTrack) : String → Option SpotifyTrack :=
  fun id => if inSuccessfulBatch ids batchOk id then spotify id else none

/-- `fetchSongsData`: scrape the first 100 rows, query their ids in batches of
50 against the Spotify API, and enrich each row in place — in row order. -/
def fetchSongsData (rows : List ScrapedRow) (batchOk : Nat → Bool)
    (spotify : String → Option SpotifyTrack) : List Track :=
  let taken := rows.take 100
  taken.map (enrichOne (spotifyDataOf (trackIdsOf taken) batchOk spotify))

/-- A sample scraped row used for concrete evaluations. -/
def sampleRow : ScrapedRow := ⟨1, "+1", "Song", "Name", "a", 10, 1, 100, 1000⟩

/-- A sample Spotify catalogue knowing every id as the same small track. -/
def sampleSpotify : String → Option SpotifyTrack :=
  fun _ => some ⟨[⟨"N", "i", none⟩], none⟩

/-- The reducer body of `getImageByWidth` in `ImageTools.ts`: keep `current`
when its absolute width distance to the target is at most that of `closest`
(ties go to the later element). -/
def closerImage (targetWidth : Int) (closest current : Image) : Image :=
  if (current.width - targetWidth).natAbs ≤ (closest.width - targetWidth).natAbs
  then current else closest

/-- `getImageByWidth`: `null` on an empty list, otherwise
`images.reduce(..., images[0])`, which folds over every element (the first
one twice, once as seed and once as `current`). -/
def getImageByWidth (images : List Image) (targetWidth : Int) : Option Image :=
  match images with
  | [] => none
  | i :: rest => some ((i :: rest).foldl (closerImage targetWidth) i)

/-- The single-character split of JavaScript `String.split(sep)`: consecutive
separators yield empty fragments, the empty string yields one empty fragment. -/
def splitChars (sep : Char) : List Char → List (List Char)
  | [] => [[]]
  | c :: cs =>
    let rest := splitChars sep cs
    if c = sep then [] :: rest
    else
      match rest with
      | [] => [[c]]
      | r :: rs => (c :: r) :: rs

/-- `authHeader.split(' ')` of the middleware, over Lean strings. -/
def jsSplitSpace (s : String) : List String :=
  (splitChars ' ' s.toList).map (fun l => ⟨l⟩)

/-- The three answers of the authentication middleware: pass the request on,
reject with HTTP 401, or reject with HTTP 403. -/
inductive AuthResult where
  | ok
  | unauthorized
  | forbidden
deriving DecidableEq

/-- `authenticateToken` of `api/index.js` (duplicated in the standalone
server): 401 without a header, 401 when `split(' ')[1]` is missing or empty
(falsy), 403 when that token differs from the configured secret, and pass
otherwise.  The word before the first space is never inspected. -/
def authenticateToken (secret : String) (authHeader : Option String) : AuthResult :=
  match authHeader with
  | none => .unauthorized
  | some h =>
    match (jsSplitSpace h)[1]? with
    | none => .unauthorized
    | some token =>
      if token = "" then .unauthorized
      else if token ≠ secret then .forbidden
      else .ok

/-- C1 (counterexample): at the cutover instant itself the refresh predicate
is false on both tiers, although the claimed formula
`t < CutoverInstant(now) AND now >= CutoverInstant(now)` holds there: with
`now` = 23:00 UTC Jan 1 1970 and `t` = midnight, `t` precedes the cutover and
`now` equals it, yet neither `shouldRefreshCache` nor the client calendar
clause reports the entry as due. -/
theorem dueForRefresh_false_at_cutoff_instant :
    shouldRefreshCache (some ⟨some 0, []⟩) 82800000 = false
    ∧ staleCalendarClause 0 82800000 = false
    ∧ (0 : Int) < todayCutoff 82800000
    ∧ 82800000 ≥ todayCutoff 82800000 := by
  refine ⟨by decide, by decide, by decide, by decide⟩

/-- C1 (amended): for every timestamp `t` and instant `now`, the due-for-refresh
predicate (server `shouldRefreshCache`, client calendar clause of
`isCacheStale`) is true iff `t < CutoverInstant(now)` AND `now` is STRICTLY
after `CutoverInstant(now)`; at the cutover instant itself the predicate is
false, since both tiers compare with `>`. -/
theorem dueForRefresh_iff_strictly_after_cutoff (t now : Int) (tracks : List Track) :
    (shouldRefreshCache (some ⟨some t, tracks⟩) now = true
        ↔ (t < todayCutoff now ∧ now > todayCutoff now))
    ∧ (staleCalendarClause t now = true
        ↔ (t < todayCutoff now ∧ now > todayCutoff now)) := by
  constructor
  · simp [shouldRefreshCache]
  · simp [staleCalendarClause]

/-- C7 (counterexample): exactly at 23:00 UTC, `now` is not strictly before the
cutoff of its own date, so the claim demands the following day; the code keeps
the same day, because its guard is the strict `now > next11PM`. -/
theorem getNext11PMUTC_at_cutoff_returns_today :
    ¬ (82800000 : Int) < todayCutoff 82800000
    ∧ getNext11PMUTC 82800000 = todayCutoff 82800000
    ∧ getNext11PMUTC 82800000 ≠ todayCutoff 82800000 + msPerDay := by
  refine ⟨by decide, by decide, by decide⟩

/-- C7 (amended): `getNext11PMUTC now` returns 23:00 UTC of the current date
when `now ≤` that instant (including equality), and 23:00 UTC of the next day
when `now` is strictly past it; the result is always the unique 23:00-UTC
instant in the half-open window `[now, now + 1 day)`. -/
theorem getNext11PMUTC_next_cutover (now : Int) :
    (now ≤ todayCutoff now → getNext11PMUTC now = todayCutoff now)
    ∧ (todayCutoff now < now → getNext11PMUTC now = todayCutoff now + msPerDay)
    ∧ now ≤ getNext11PMUTC now
    ∧ getNext11PMUTC now < now + msPerDay
    ∧ getNext11PMUTC now % msPerDay = 23 * msPerHour := by
  unfold getNext11PMUTC todayCutoff msPerDay msPerHour
  split
  · refine ⟨by omega, fun _ => rfl, by omega, by omega, by omega⟩
  · refine ⟨fun _ => rfl, by omega, by omega, by omega, by omega⟩

/-- C7 (witness for the amended statement): at midnight the next cutover is the
same date at 23:00, and twenty minutes past that cutoff it is the next day. -/
theorem getNext11PMUTC_next_cutover_witness :
    getNext11PMUTC 0 = todayCutoff 0
    ∧ getNext11PMUTC 84000000 = todayCutoff 84000000 + msPerDay := by
  exact ⟨(getNext11PMUTC_next_cutover 0).1 (by decide),
    (getNext11PMUTC_next_cutover 84000000).2.1 (by decide)⟩

/-- C2: on both tiers an entry is valid iff its timestamp lies strictly after
`CutoverInstant(now) - 1 day` (23:00 UTC of the previous day); an absent entry
or an entry without a `cachedAt` timestamp is never valid, and a read over such
a store always performs exactly one source fetch. -/
theorem isCacheValid_iff_after_yesterday_cutoff (t now : Int) (tracks : List Track) :
    (isCacheValid (some ⟨some t, tracks⟩) now = true ↔ t > todayCutoff now - msPerDay)
    ∧ isCacheValid none now = false
    ∧ isCacheValid (some ⟨none, tracks⟩) now = false
    ∧ (clientIsCacheValid (some t) now = true ↔ t > todayCutoff now - msPerDay)
    ∧ clientIsCacheValid none now = false
    ∧ (∀ f, (serverRead .missing now f).fetches = 1)
    ∧ (∀ f, (serverRead (.stored none (some tracks)) now f).fetches = 1)
    ∧ (∀ f, (clientRead .missing now f).fetches = 1)
    ∧ (∀ f, (clientRead (.stored none (some tracks)) now f).fetches = 1) := by
  refine ⟨by simp [isCacheValid, yesterdayCutoff], rfl, rfl,
    by simp [clientIsCacheValid, yesterdayCutoff], rfl, ?_, ?_, ?_, ?_⟩
  · intro f
    cases f <;> rfl
  · intro f
    cases f <;> rfl
  · intro f
    cases f <;> rfl
  · intro f
    cases f <;> rfl

/-- Loading returns the store unchanged whenever an entry is found. -/
theorem clientLoadFromCache_found_store_eq (store : LocalPayload) (now : Int)
    (e : ClientEntry) (h : (clientLoadFromCache store now).1 = some e) :
    (clientLoadFromCache store now).2 = store := by
  cases store with
  | missing => simp [clientLoadFromCache] at h
  | badString => simp [clientLoadFromCache] at h
  | stored c d =>
    cases c with
    | none => simp [clientLoadFromCache] at h
    | some t =>
      by_cases hv : clientIsCacheValid (some t) now = true
      · simp [clientLoadFromCache, hv]
      · simp [clientLoadFromCache, hv] at h

/-- The found entry is the stored one: a valid timestamp with the raw data field. -/
theorem clientLoadFromCache_found_shape (store : LocalPayload) (now : Int)
    (e : ClientEntry) (h : (clientLoadFromCache store now).1 = some e) :
    store = .stored (some e.cachedAt) e.data
    ∧ clientIsCacheValid (some e.cachedAt) now = true := by
  cases store with
  | missing => simp [clientLoadFromCache] at h
  | badString => simp [clientLoadFromCache] at h
  | stored c d =>
    cases c with
    | none => simp [clientLoadFromCache] at h
    | some t =>
      by_cases hv : clientIsCacheValid (some t) now = true
      · simp [clientLoadFromCache, hv] at h
        cases h
        exact ⟨rfl, hv⟩
      · simp [clientLoadFromCache, hv] at h

/-- C3 (counterexample): the client does not serve every valid, not-due entry
from cache.  An entry cached at midnight and read at 13:00 the same day is
valid and not due by the calendar clause (the due-for-refresh predicate of
the claim set), yet it trips the 12-hour fallback of the full `isCacheStale`,
so the client read performs a fetch, answers the fresh data instead of the
cached data, and rewrites the store. -/
theorem clientRead_fetches_despite_not_calendar_due :
    clientIsCacheValid (some 0) 46800000 = true
    ∧ staleCalendarClause 0 46800000 = false
    ∧ (clientLoadFromCache (.stored (some 0) (some [])) 46800000).1 = some ⟨0, some []⟩
    ∧ clientRead (.stored (some 0) (some [])) 46800000 (.ok [fallbackTrack sampleRow])
        = ⟨.ok [fallbackTrack sampleRow],
            .stored (some 46800000) (some [fallbackTrack sampleRow]), 1⟩
    ∧ (.ok [fallbackTrack sampleRow] : Except Unit (List Track)) ≠ .ok []
    ∧ LocalPayload.stored (some 46800000) (some [fallbackTrack sampleRow])
        ≠ .stored (some 0) (some []) := by
  refine ⟨by decide, by decide, by decide, by decide, by decide, by decide⟩

/-- C3 (amended): when an entry exists, is valid and is not due for a refresh
— on the server tier not due by `shouldRefreshCache`, on the client tier not
due by the FULL `isCacheStale` predicate, whose 12-hour fallback also forces a
refresh of entries older than 12 hours even when the calendar clause is false
— a read on either tier answers exactly the cached data, runs no fetch and
leaves the store untouched; hence a second read right after it runs no fetch
either, so two successive reads under that condition perform zero fetches. -/
theorem read_serves_cache_without_fetch :
    (∀ store now f g c, loadFromCache store = some c →
      isCacheValid (some c) now = true →
      shouldRefreshCache (some c) now = false →
      serverRead store now f = ⟨.ok c.tracks, store, 0⟩
      ∧ (serverRead store now f).fetches
          + (serverRead (serverRead store now f).store now g).fetches = 0)
    ∧ (∀ store now f g e d, (clientLoadFromCache store now).1 = some e →
      e.data = some d →
      isCacheStale e.cachedAt now = false →
      clientRead store now f = ⟨.ok d, store, 0⟩
      ∧ (clientRead store now f).fetches
          + (clientRead (clientRead store now f).store now g).fetches = 0) := by
  constructor
  · intro store now f g c h1 h2 h3
    have hmain : ∀ fr, serverRead store now fr = ⟨.ok c.tracks, store, 0⟩ := by
      intro fr
      simp [serverRead, h1, h2, h3]
    refine ⟨hmain f, ?_⟩
    rw [hmain f]
    rw [show (⟨.ok c.tracks, store, 0⟩ : ServerOutcome).store = store from rfl]
    rw [hmain g]
    rfl
  · intro store now f g e d h1 h2 h3
    obtain ⟨hs, hv⟩ := clientLoadFromCache_found_shape store now e h1
    have hmain : ∀ fr, clientRead store now fr = ⟨.ok d, store, 0⟩ := by
      intro fr
      rw [hs]
      simp [clientRead, clientLoadFromCache, hv, h3, applyData, h2]
    refine ⟨hmain f, ?_⟩
    rw [hmain f]
    rw [show (⟨.ok d, store, 0⟩ : ClientOutcome).store = store from rfl]
    rw [hmain g]
    rfl

/-- C3 (witness for the amended statement): a fresh entry written at midnight
and read at midnight is served twice from cache with zero fetches on both
tiers. -/
theorem read_serves_cache_without_fetch_witness :
    serverRead (.stored (some 0) (some [])) 0 (.error ()) = ⟨.ok [], .stored (some 0) (some []), 0⟩
    ∧ clientRead (.stored (some 0) (some [])) 0 (.error ()) = ⟨.ok [], .stored (some 0) (some []), 0⟩ := by
  exact ⟨(read_serves_cache_without_fetch.1 (.stored (some 0) (some [])) 0
      (.error ()) (.error ()) ⟨some 0, []⟩ (by decide) (by decide) (by decide)).1,
    (read_serves_cache_without_fetch.2 (.stored (some 0) (some [])) 0
      (.error ()) (.error ()) ⟨0, some []⟩ [] (by decide) rfl (by decide)).1⟩

/-- C4: whenever loading yields a prior entry, a read whose source fetch fails
answers exactly that data of the entry, leaves the store unchanged, and does
not surface the fetch error; on the server tier this covers entries that are
invalid or due for refresh, since the fallback reload skips both checks. -/
theorem read_fetch_failure_serves_prior_entry :
    (∀ store now c, loadFromCache store = some c →
      (serverRead store now (.error ())).result = .ok c.tracks
      ∧ (serverRead store now (.error ())).store = store)
    ∧ (∀ store now e d, (clientLoadFromCache store now).1 = some e →
      e.data = some d →
      (clientRead store now (.error ())).result = .ok d
      ∧ (clientRead store now (.error ())).store = store) := by
  constructor
  · intro store now c h1
    simp only [serverRead, h1]
    split
    · exact ⟨rfl, rfl⟩
    · simp [serverFetchPath, h1]
  · intro store now e d h1 h2
    obtain ⟨hs, hv⟩ := clientLoadFromCache_found_shape store now e h1
    rw [hs]
    by_cases hst : isCacheStale e.cachedAt now = true
    · simp [clientRead, clientLoadFromCache, hv, hst, applyData, h2]
    · simp only [Bool.not_eq_true] at hst
      simp [clientRead, clientLoadFromCache, hv, hst, applyData, h2]

/-- C4 (witness): on the server an ancient entry (invalid and due) is still
served when the fetch fails; on the client a valid but calendar-stale entry is
served after the failed refresh attempt.  Timestamps are scenario C of the
spec: cached Jan 4 1970 23:30 UTC, read Jan 5 1970 23:30 UTC. -/
theorem read_fetch_failure_serves_prior_entry_witness :
    isCacheValid (some ⟨some 0, []⟩) 169800000 = false
    ∧ shouldRefreshCache (some ⟨some 0, []⟩) 169800000 = true
    ∧ (serverRead (.stored (some 0) (some [])) 169800000 (.error ())).result = .ok []
    ∧ isCacheStale 430200000 516600000 = true
    ∧ (clientRead (.stored (some 430200000) (some [])) 516600000 (.error ())).result = .ok [] := by
  refine ⟨by decide, by decide,
    (read_fetch_failure_serves_prior_entry.1 (.stored (some 0) (some []))
      169800000 ⟨some 0, []⟩ (by decide)).1,
    by decide,
    (read_fetch_failure_serves_prior_entry.2 (.stored (some 430200000) (some []))
      516600000 ⟨430200000, some []⟩ [] (by decide) rfl).1⟩

/-- C6 (counterexample): read can also fail when a prior entry exists.  With a
client store holding `{cachedAt: epoch}` but no `data` field at `now` = epoch,
the entry loads (it is valid and not stale), yet the read ends in the error
state even though the fetch — never attempted — would have succeeded. -/
theorem clientRead_fails_on_entry_without_data :
    (clientLoadFromCache (.stored (some 0) none) 0).1 = some ⟨0, none⟩
    ∧ (clientRead (.stored (some 0) none) 0 (.ok [])).result = .error () := by
  exact ⟨by decide, by decide⟩

/-- C6 (amended): on the server tier a read fails exactly when the fetch fails
and no prior entry loads; on the client tier the same equivalence holds for
every store whose parsed payload carries a `data` field — without that field a
served entry itself crashes the render and the read fails as well. -/
theorem read_fails_iff_no_entry_and_fetch_error :
    (∀ store now f, (serverRead store now f).result = .error ()
        ↔ (loadFromCache store = none ∧ f = .error ()))
    ∧ (∀ store now f, (∀ c d, store = LocalPayload.stored c d → d ≠ none) →
        ((clientRead store now f).result = .error ()
          ↔ ((clientLoadFromCache store now).1 = none ∧ f = .error ()))) := by
  constructor
  · intro store now f
    cases hl : loadFromCache store with
    | some c =>
      cases f with
      | ok tr =>
        simp only [serverRead, hl, serverFetchPath]
        split <;> simp
      | error e =>
        cases e
        simp only [serverRead, hl, serverFetchPath]
        split <;> simp
    | none =>
      cases f with
      | ok tr => simp [serverRead, hl, serverFetchPath]
      | error e =>
        cases e
        simp [serverRead, hl, serverFetchPath]
  · intro store now f hwf
    cases store with
    | missing =>
      cases f with
      | ok tr => simp [clientRead, clientLoadFromCache]
      | error e => cases e; simp [clientRead, clientLoadFromCache]
    | badString =>
      cases f with
      | ok tr => simp [clientRead, clientLoadFromCache]
      | error e => cases e; simp [clientRead, clientLoadFromCache]
    | stored c d =>
      obtain ⟨dd, rfl⟩ : ∃ dd, d = some dd := by
        cases d with
        | none => exact absurd rfl (hwf c none rfl)
        | some dd => exact ⟨dd, rfl⟩
      cases c with
      | none =>
        cases f with
        | ok tr => simp [clientRead, clientLoadFromCache]
        | error e => cases e; simp [clientRead, clientLoadFromCache]
      | some t =>
        by_cases hv : clientIsCacheValid (some t) now = true
        · by_cases hst : isCacheStale t now = true
          · cases f with
            | ok tr => simp [clientRead, clientLoadFromCache, hv, hst, applyData]
            | error e =>
              cases e
              simp [clientRead, clientLoadFromCache, hv, hst, applyData]
          · simp only [Bool.not_eq_true] at hst
            cases f with
            | ok tr => simp [clientRead, clientLoadFromCache, hv, hst, applyData]
            | error e =>
              cases e
              simp [clientRead, clientLoadFromCache, hv, hst, applyData]
        · simp only [Bool.not_eq_true] at hv
          cases f with
          | ok tr => simp [clientRead, clientLoadFromCache, hv]
          | error e => cases e; simp [clientRead, clientLoadFromCache, hv]

/-- C6 (witness for the amended statement): with an empty store and a failing
source, both tiers surface the failure to the caller. -/
theorem read_fails_iff_no_entry_and_fetch_error_witness :
    (serverRead .missing 0 (.error ())).result = .error ()
    ∧ (clientRead .missing 0 (.error ())).result = .error () := by
  exact ⟨(read_fails_iff_no_entry_and_fetch_error.1 .missing 0 (.error ())).mpr
      ⟨rfl, rfl⟩,
    (read_fails_iff_no_entry_and_fetch_error.2 .missing 0 (.error ())
      (fun c d h => by cases h)).mpr ⟨rfl, rfl⟩⟩

/-- C8 (counterexample): a malformed payload is answered as absent but is NOT
dropped from the underlying store on either tier (the server has no delete
call at all, the client catch clause returns without removing), and a client
payload that has `cachedAt` but no `data` field is even returned as present
rather than absent. -/
theorem loadFromCache_keeps_invalid_entry :
    loadFromCacheStore .badString = (none, .badString)
    ∧ RedisPayload.badString ≠ .missing
    ∧ clientLoadFromCache .badString 0 = (none, .badString)
    ∧ LocalPayload.badString ≠ .missing
    ∧ (clientLoadFromCache (.stored (some 0) none) 0).1 = some ⟨0, none⟩ := by
  exact ⟨by decide, by decide, by decide, by decide, by decide⟩

/-- C8 (amended): `get` never throws — it is a total function — and returns
absent on a read error, a missing entry, a deserialization failure, an
unexpected payload type, or (server) a payload without truthy `cachedAt` and
`tracks`; but no tier drops such entries from the store.  The client drops
exactly the parsed entries failing the time-validity check (including a
missing `cachedAt`), and hands back a payload with `cachedAt` but no `data`
as a present entry. -/
theorem loadFromCache_branch_behavior (now : Int) :
    loadFromCacheStore .missing = (none, .missing)
    ∧ loadFromCacheStore .badString = (none, .badString)
    ∧ loadFromCacheStore .badType = (none, .badType)
    ∧ loadFromCacheStore .readError = (none, .readError)
    ∧ (∀ d, loadFromCacheStore (.stored none d) = (none, .stored none d))
    ∧ (∀ t, loadFromCacheStore (.stored (some t) none) = (none, .stored (some t) none))
    ∧ (∀ t tr, loadFromCacheStore (.stored (some t) (some tr))
        = (some ⟨some t, tr⟩, .stored (some t) (some tr)))
    ∧ clientLoadFromCache .missing now = (none, .missing)
    ∧ clientLoadFromCache .badString now = (none, .badString)
    ∧ (∀ d, clientLoadFromCache (.stored none d) now = (none, .missing))
    ∧ (∀ t d, clientIsCacheValid (some t) now = false →
        clientLoadFromCache (.stored (some t) d) now = (none, .missing))
    ∧ (∀ t d, clientIsCacheValid (some t) now = true →
        clientLoadFromCache (.stored (some t) d) now = (some ⟨t, d⟩, .stored (some t) d)) := by
  refine ⟨rfl, rfl, rfl, rfl, fun d => rfl, fun t => rfl, fun t tr => rfl,
    rfl, rfl, fun d => rfl, ?_, ?_⟩
  · intro t d hv
    simp [clientLoadFromCache, hv]
  · intro t d hv
    simp [clientLoadFromCache, hv]

/-- C8 (witness for the amended statement): at epoch, a fresh entry is kept
and returned, and an entry two days old is dropped by the client. -/
theorem loadFromCache_branch_behavior_witness :
    clientLoadFromCache (.stored (some 0) (some [])) 0
      = (some ⟨0, some []⟩, .stored (some 0) (some []))
    ∧ clientLoadFromCache (.stored (some (-172800000)) (some [])) 0 = (none, .missing) := by
  exact ⟨(loadFromCache_branch_behavior 0).2.2.2.2.2.2.2.2.2.2.2 0 (some []) (by decide),
    (loadFromCache_branch_behavior 0).2.2.2.2.2.2.2.2.2.2.1 (-172800000) (some []) (by decide)⟩

/-- With enough fuel the worker splits the whole list into its batches. -/
theorem chunks50Go_flatten (fuel : Nat) (l : List String) (h : l.length ≤ fuel) :
    (chunks50Go fuel l).flatten = l := by
  induction fuel generalizing l with
  | zero =>
    cases l with
    | nil => rfl
    | cons x xs => simp at h
  | succ fuel ih =>
    cases l with
    | nil => rfl
    | cons x xs =>
      simp only [chunks50Go, List.flatten_cons]
      rw [ih ((x :: xs).drop 50)
        (by simp only [List.length_drop, List.length_cons] at h ⊢; omega)]
      exact List.take_append_drop 50 (x :: xs)

/-- The batch loop queries every collected id exactly once: concatenating the
batches gives back the id list. -/
theorem chunks50_join (l : List String) : (chunks50 l).flatten = l :=
  chunks50Go_flatten l.length l le_rfl

/-- C5: enrichment never removes or reorders items — the result lists exactly
the (up to) 100 scraped rows, each mapped in place; an id queried only by
failed batches resolves to nothing, so its row keeps the scraped fallback (one
contributor with the scraped name and an empty link, no images), while an id
queried by a successful batch resolves to the catalogue data and its row
carries the mapped contributors and images; the batch loop queries every
collected id. -/
theorem fetchSongsData_isolates_batch_failures
    (rows : List ScrapedRow) (batchOk : Nat → Bool)
    (spotify : String → Option SpotifyTrack) :
    (fetchSongsData rows batchOk spotify).length = (rows.take 100).length
    ∧ (∀ i : Nat, (fetchSongsData rows batchOk spotify)[i]?
        = ((rows.take 100)[i]?).map
            (enrichOne (spotifyDataOf (trackIdsOf (rows.take 100)) batchOk spotify)))
    ∧ (chunks50 (trackIdsOf (rows.take 100))).flatten = trackIdsOf (rows.take 100)
    ∧ (∀ id, inSuccessfulBatch (trackIdsOf (rows.take 100)) batchOk id = false →
        spotifyDataOf (trackIdsOf (rows.take 100)) batchOk spotify id = none)
    ∧ (∀ id, inSuccessfulBatch (trackIdsOf (rows.take 100)) batchOk id = true →
        spotifyDataOf (trackIdsOf (rows.take 100)) batchOk spotify id = spotify id)
    ∧ (∀ lookup s, lookup s.trackId = none → enrichOne lookup s = fallbackTrack s)
    ∧ (∀ lookup s st, s.trackId ≠ "" → lookup s.trackId = some st →
        enrichOne lookup s = enrichedTrack s st)
    ∧ (∀ s, (fallbackTrack s).artists = [⟨s.artist, ""⟩]
        ∧ (fallbackTrack s).images = []
        ∧ (fallbackTrack s).position = s.position
        ∧ (fallbackTrack s).title = s.title)
    ∧ (∀ s st, (enrichedTrack s st).artists = st.artists.map enrichArtist
        ∧ (enrichedTrack s st).images
            = (st.albumImages.map (List.map enrichImage)).getD []
        ∧ (enrichedTrack s st).position = s.position
        ∧ (enrichedTrack s st).title = s.title) := by
  refine ⟨?_, ?_, chunks50_join _, ?_, ?_, ?_, ?_, ?_, ?_⟩
  · simp [fetchSongsData]
  · intro i
    show ((rows.take 100).map
        (enrichOne (spotifyDataOf (trackIdsOf (rows.take 100)) batchOk spotify)))[i]? = _
    rw [List.getElem?_map]
  · intro id h
    simp [spotifyDataOf, h]
  · intro id h
    simp [spotifyDataOf, h]
  · intro lookup s h
    unfold enrichOne
    split
    · rfl
    · rw [h]
  · intro lookup s st h1 h2
    unfold enrichOne
    split
    · exact absurd (by assumption) h1
    · rw [h2]
  · intro s
    exact ⟨rfl, rfl, rfl, rfl⟩
  · intro s st
    exact ⟨rfl, rfl, rfl, rfl⟩

/-- C5 (witness): a one-row chart whose single extracted id is queried by the
one batch; when that batch fails the row keeps the scraped fallback, and when
it succeeds the row carries the catalogue artists and images. -/
theorem fetchSongsData_isolates_batch_failures_witness :
    fetchSongsData [sampleRow] (fun _ => false) sampleSpotify
      = [fallbackTrack sampleRow]
    ∧ fetchSongsData [sampleRow] (fun _ => true) sampleSpotify
      = [enrichedTrack sampleRow ⟨[⟨"N", "i", none⟩], none⟩] := by
  have h := fetchSongsData_isolates_batch_failures [sampleRow]
    (fun _ => false) sampleSpotify
  have h2 := fetchSongsData_isolates_batch_failures [sampleRow]
    (fun _ => true) sampleSpotify
  constructor
  · have hf := h.2.2.2.2.2.1
      (spotifyDataOf (trackIdsOf (List.take 100 [sampleRow])) (fun _ => false) sampleSpotify)
      sampleRow (by decide)
    calc fetchSongsData [sampleRow] (fun _ => false) sampleSpotify
        = [enrichOne (spotifyDataOf (trackIdsOf (List.take 100 [sampleRow]))
            (fun _ => false) sampleSpotify) sampleRow] := rfl
      _ = [fallbackTrack sampleRow] := by rw [hf]
  · have hf := h2.2.2.2.2.2.2.1
      (spotifyDataOf (trackIdsOf (List.take 100 [sampleRow])) (fun _ => true) sampleSpotify)
      sampleRow ⟨[⟨"N", "i", none⟩], none⟩ (by decide) (by decide)
    calc fetchSongsData [sampleRow] (fun _ => true) sampleSpotify
        = [enrichOne (spotifyDataOf (trackIdsOf (List.take 100 [sampleRow]))
            (fun _ => true) sampleSpotify) sampleRow] := rfl
      _ = [enrichedTrack sampleRow ⟨[⟨"N", "i", none⟩], none⟩] := by rw [hf]

/-- The reduce result is the seed or a list element. -/
theorem closerImage_foldl_mem (w : Int) (l : List Image) (a : Image) :
    l.foldl (closerImage w) a = a ∨ l.foldl (closerImage w) a ∈ l := by
  induction l generalizing a with
  | nil => exact Or.inl rfl
  | cons c cs ih =>
    simp only [List.foldl_cons]
    rcases ih (closerImage w a c) with h | h
    · by_cases hc : (c.width - w).natAbs ≤ (a.width - w).natAbs
      · have hcc : closerImage w a c = c := if_pos hc
        refine Or.inr ?_
        rw [h, hcc]
        exact List.mem_cons_self c cs
      · have hca : closerImage w a c = a := if_neg hc
        exact Or.inl (h.trans hca)
    · exact Or.inr (List.mem_cons_of_mem c h)

/-- The reduce result is at least as close to the target as the seed and as
every list element. -/
theorem closerImage_foldl_le (w : Int) (l : List Image) (a : Image) :
    ((l.foldl (closerImage w) a).width - w).natAbs ≤ (a.width - w).natAbs
    ∧ ∀ x ∈ l, ((l.foldl (closerImage w) a).width - w).natAbs ≤ (x.width - w).natAbs := by
  induction l generalizing a with
  | nil =>
    refine ⟨le_rfl, ?_⟩
    intro x hx
    cases hx
  | cons c cs ih =>
    obtain ⟨h1, h2⟩ := ih (closerImage w a c)
    have hac : ((closerImage w a c).width - w).natAbs ≤ (a.width - w).natAbs
        ∧ ((closerImage w a c).width - w).natAbs ≤ (c.width - w).natAbs := by
      unfold closerImage
      by_cases hc : (c.width - w).natAbs ≤ (a.width - w).natAbs
      · rw [if_pos hc]
        exact ⟨hc, le_rfl⟩
      · rw [if_neg hc]
        exact ⟨le_rfl, le_of_not_le hc⟩
    simp only [List.foldl_cons]
    refine ⟨le_trans h1 hac.1, ?_⟩
    intro x hx
    rcases List.mem_cons.mp hx with rfl | hx
    · exact le_trans h1 hac.2
    · exact h2 x hx

/-- C9: `getImageByWidth` returns `null` exactly on the empty list, and any
returned image is an element of the input whose absolute width distance to the
target is minimal over the whole list (the input itself is never modified —
the embedding is a pure function of the list). -/
theorem getImageByWidth_picks_closest (images : List Image) (w : Int) :
    (getImageByWidth images w = none ↔ images = [])
    ∧ (∀ img, getImageByWidth images w = some img →
        img ∈ images
        ∧ ∀ x ∈ images, (img.width - w).natAbs ≤ (x.width - w).natAbs) := by
  cases images with
  | nil =>
    refine ⟨by simp [getImageByWidth], ?_⟩
    intro img h
    simp [getImageByWidth] at h
  | cons i rest =>
    refine ⟨by simp [getImageByWidth], ?_⟩
    intro img h
    obtain rfl : (i :: rest).foldl (closerImage w) i = img := by
      simpa [getImageByWidth] using h
    refine ⟨?_, (closerImage_foldl_le w (i :: rest) i).2⟩
    rcases closerImage_foldl_mem w (i :: rest) i with hm | hm
    · rw [hm]
      exact List.mem_cons_self i rest
    · exact hm

/-- C9 (witness): among widths 64, 320 and 640 the helper picks 320 for a
target of 300, a member of minimal distance. -/
theorem getImageByWidth_picks_closest_witness :
    (⟨"b", 320, 320⟩ : Image) ∈ [(⟨"a", 64, 64⟩ : Image), ⟨"b", 320, 320⟩, ⟨"c", 640, 640⟩]
    ∧ ∀ x ∈ [(⟨"a", 64, 64⟩ : Image), ⟨"b", 320, 320⟩, ⟨"c", 640, 640⟩],
        ((⟨"b", 320, 320⟩ : Image).width - 300).natAbs ≤ (x.width - 300).natAbs :=
  (getImageByWidth_picks_closest [⟨"a", 64, 64⟩, ⟨"b", 320, 320⟩, ⟨"c", 640, 640⟩] 300).2
    ⟨"b", 320, 320⟩ (by decide)

/-- C10: with a non-empty configured secret (enforced at startup), the
middleware accepts exactly the requests whose second space-separated header
token equals the secret; a missing header or missing/empty second token gives
401, any other mismatching token gives 403, and the decision depends only on
the second token — the scheme word is never checked. -/
theorem authenticateToken_characterization (secret : String) (hs : secret ≠ "") :
    authenticateToken secret none = .unauthorized
    ∧ (∀ h, (jsSplitSpace h)[1]? = none →
        authenticateToken secret (some h) = .unauthorized)
    ∧ (∀ h, (jsSplitSpace h)[1]? = some "" →
        authenticateToken secret (some h) = .unauthorized)
    ∧ (∀ h t, (jsSplitSpace h)[1]? = some t → t ≠ "" → t ≠ secret →
        authenticateToken secret (some h) = .forbidden)
    ∧ (∀ h, authenticateToken secret (some h) = .ok
        ↔ (jsSplitSpace h)[1]? = some secret)
    ∧ (∀ h g, (jsSplitSpace h)[1]? = (jsSplitSpace g)[1]? →
        authenticateToken secret (some h) = authenticateToken secret (some g)) := by
  refine ⟨rfl, ?_, ?_, ?_, ?_, ?_⟩
  · intro h hg
    simp [authenticateToken, hg]
  · intro h hg
    simp [authenticateToken, hg]
  · intro h t hg h1 h2
    simp [authenticateToken, hg, h1, h2]
  · intro h
    constructor
    · intro hok
      cases hg : (jsSplitSpace h)[1]? with
      | none => simp [authenticateToken, hg] at hok
      | some t =>
        simp only [authenticateToken, hg] at hok
        by_cases h1 : t = ""
        · rw [if_pos h1] at hok
          simp at hok
        · rw [if_neg h1] at hok
          by_cases h2 : t = secret
          · rw [h2]
          · have h2n : t ≠ secret := h2
            rw [if_pos h2n] at hok
            simp at hok
    · intro hg
      simp [authenticateToken, hg, hs]
  · intro h g he
    simp only [authenticateToken]
    rw [he]

/-- C10 (witness): with secret `s3cret`, a missing header and a bare scheme
word are 401, a wrong token is 403, and any scheme word followed by the secret
passes. -/
theorem authenticateToken_characterization_witness :
    authenticateToken "s3cret" none = .unauthorized
    ∧ authenticateToken "s3cret" (some "Token s3cret") = .ok
    ∧ authenticateToken "s3cret" (some "Bearer") = .unauthorized
    ∧ authenticateToken "s3cret" (some "Bearer wrong") = .forbidden := by
  have h := authenticateToken_characterization "s3cret" (by decide)
  exact ⟨h.1,
    (h.2.2.2.2.1 "Token s3cret").mpr (by decide),
    h.2.1 "Bearer" (by decide),
    h.2.2.2.1 "Bearer wrong" "wrong" (by decide) (by decide) (by decide)⟩

